import Mathlib

/-!
Verification development for the vnpyBacktest repository.

The development shallowly embeds the strategy core of
`ModularDoubleMaStrategy.py` (indicator window, trend filter, crossover
signal, position sizing, trailing-stop exit machine, R-multiple recording)
and the two Van-Tharp statistics reporters: the `tharp_stats` block of
`撒普统计对/CTABacktest.run_backtest`, and `batchBacktest.print_van_tharp_stats`,
which applies its formulas to the strategy's record dicts and therefore
raises a `TypeError` on any nonempty record list.

Prices and indicator values are modelled as exact rationals; the only real
numbers appearing are the square roots used by the standard-deviation and
SQN statistics.  `vnpy.trader.utility.ArrayManager` is a third-party
dependency whose code is not part of the repository; the `BarWindow`
structure below models it from the specification (rolling window of the
most recent 150 bars, SMA as the arithmetic mean of the last `n` closes
with an optional lag, ATR as a true-range average).
-/

open scoped Classical

set_option maxRecDepth 8000

namespace VnpyBacktest

/-- One OHLC bar.  The source's `BarData` also carries open price, volume and
exchange metadata, none of which the strategy core reads; `dt` abstracts the
bar's timestamp (the strategy only copies it into R-multiple records). -/
structure Bar where
  dt : ℕ
  high_price : ℚ
  low_price : ℚ
  close_price : ℚ
deriving DecidableEq, Repr

/-- Capacity of the rolling window: `ArrayManager(size=150)`. -/
def am_size : ℕ := 150

/-- Modelled from the spec: the rolling bar window (`ArrayManager` of
`vnpy.trader.utility`, not part of this repository).  `bars` holds the most
recent `am_size` bars, oldest first; `count` is the total number of bars ever
observed, so `inited` can flip exactly once. -/
structure BarWindow where
  bars : List Bar
  count : ℕ
deriving DecidableEq, Repr

/-- Modelled from the spec: `ArrayManager.update_bar` appends a bar,
evicting the oldest bar beyond the capacity. -/
def BarWindow.update_bar (w : BarWindow) (b : Bar) : BarWindow :=
  let l := w.bars ++ [b]
  ⟨l.drop (l.length - am_size), w.count + 1⟩

/-- Modelled from the spec: the window is `inited` once it has observed at
least `am_size` bars; the flag never reverts. -/
def BarWindow.inited (w : BarWindow) : Bool := decide (am_size ≤ w.count)

/-- The last `n` elements of a list (all of it when `n` exceeds the length). -/
def lastN (l : List ℚ) (n : ℕ) : List ℚ := l.drop (l.length - n)

/-- The window's close prices, oldest first. -/
def BarWindow.closes (w : BarWindow) : List ℚ := w.bars.map Bar.close_price

/-- Modelled from the spec: `ArrayManager.sma(n)` is the arithmetic mean of
the most recent `n` closes; `lag` bars back from the newest (`lag = 1` is the
source's `sma(n, array=True)[-2]` access). -/
def BarWindow.sma (w : BarWindow) (n lag : ℕ) : ℚ :=
  (lastN ((w.closes).take (w.closes.length - lag)) n).sum / n

/-- True range of a bar given its predecessor. -/
def true_range (prev cur : Bar) : ℚ :=
  max (cur.high_price - cur.low_price)
    (max |cur.high_price - prev.close_price| |cur.low_price - prev.close_price|)

/-- True ranges of consecutive bar pairs (the window's first bar has no
previous close and contributes none). -/
def tr_list : List Bar → List ℚ
  | [] => []
  | [_] => []
  | a :: b :: rest => true_range a b :: tr_list (b :: rest)

/-- Modelled from the spec: `ArrayManager.atr(n)`, an average of the true
ranges over the last `n` bars. -/
def BarWindow.atr (w : BarWindow) (n : ℕ) : ℚ :=
  (lastN (tr_list w.bars) n).sum / n

/-- An order intent emitted to the host engine: side, price hint, size. -/
inductive Intent where
  | buy : ℚ → ℤ → Intent
  | sell : ℚ → ℤ → Intent
  | short : ℚ → ℤ → Intent
  | cover : ℚ → ℤ → Intent
deriving DecidableEq, Repr

/-- `buy` and `short` open a position; `sell` and `cover` close one. -/
def isEntryIntent : Intent → Bool
  | Intent.buy _ _ => true
  | Intent.short _ _ => true
  | _ => false

/-- One element of `self.r_multiples`: `{"datetime": ..., "r_value": ...}`. -/
structure RMultipleRecord where
  dt : ℕ
  r_value : ℚ
deriving DecidableEq, Repr

/-- The mutable state of `ModularDoubleMaStrategy`: the signed position
(owned by the host, never written by the strategy code itself), the two stop
levels, the entry bookkeeping and the append-only R-multiple list, plus the
rolling window. -/
structure ModularDoubleMaStrategy where
  pos : ℤ
  long_stop : ℚ
  short_stop : ℚ
  entry_price : ℚ
  initial_risk : ℚ
  r_multiples : List RMultipleRecord
  am : BarWindow
deriving DecidableEq, Repr

/-- Strategy parameter `fast_window = 5`. -/
def fast_window : ℕ := 5

/-- Strategy parameter `slow_window = 10`. -/
def slow_window : ℕ := 10

/-- Strategy parameter `filter_n = 5`. -/
def filter_n : ℕ := 5

/-- Strategy parameter `filter_fast = 5`. -/
def filter_fast : ℕ := 5

/-- Strategy parameter `filter_mid = 10`. -/
def filter_mid : ℕ := 10

/-- Strategy parameter `filter_slow = 20`. -/
def filter_slow : ℕ := 20

/-- Strategy parameter `atr_window = 14`. -/
def atr_window : ℕ := 14

/-- Strategy parameter `atr_multi = 3.0`. -/
def atr_multi : ℚ := 3

/-- Strategy parameter `risk_percent = 0.01`. -/
def risk_percent : ℚ := 1 / 100

/-- Strategy parameter `position_limit = 100`. -/
def position_limit : ℤ := 100

/-- Strategy parameter `init_capital = 100000`. -/
def init_capital : ℚ := 100000

/-- Python's `int(...)` on a quotient: truncation toward zero. -/
def pytrunc (q : ℚ) : ℤ := if 0 ≤ q then ⌊q⌋ else -⌊-q⌋

/-- Python 3's `round(x)` on an exact value: round half to even. -/
def roundHalfEven (x : ℚ) : ℤ :=
  let f := ⌊x⌋
  if x - f < 1 / 2 then f
  else if 1 / 2 < x - f then f + 1
  else if f % 2 = 0 then f else f + 1

/-- Python's `round(x, 4)`: round half to even at four decimal places. -/
def pyround4 (q : ℚ) : ℚ := (roundHalfEven (q * 10000) : ℚ) / 10000

/-- `check_pre_condition` of `ModularDoubleMaStrategy.py`: the trend filter
over three SMA lengths `filter_fast * filter_n`, `filter_mid * filter_n`,
`filter_slow * filter_n`. -/
def check_pre_condition (w : BarWindow) : ℤ :=
  let ma_fast := w.sma (filter_fast * filter_n) 0
  let ma_mid := w.sma (filter_mid * filter_n) 0
  let ma_slow := w.sma (filter_slow * filter_n) 0
  if ma_fast > ma_mid ∧ ma_mid > ma_slow then 1
  else if ma_fast < ma_mid ∧ ma_mid < ma_slow then -1
  else 0

/-- `check_entry_condition` of `ModularDoubleMaStrategy.py`: the double-MA
crossover signal, comparing the current SMAs and the previous bar's SMAs
(the source's `array=True ... [-2]` access, i.e. lag 1). -/
def check_entry_condition (w : BarWindow) : ℤ :=
  let ma_fast := w.sma fast_window 0
  let ma_slow := w.sma slow_window 0
  let prev_ma_fast := w.sma fast_window 1
  let prev_ma_slow := w.sma slow_window 1
  if ma_fast > ma_slow ∧ prev_ma_fast ≤ prev_ma_slow then 1
  else if ma_fast < ma_slow ∧ prev_ma_fast ≥ prev_ma_slow then -1
  else 0

/-- `calculate_position_size` of `ModularDoubleMaStrategy.py`.  The
current capital is a parameter (the source probes the engine and falls back
to `init_capital`). -/
def calculate_position_size (current_capital atr : ℚ) : ℤ :=
  if atr = 0 then 0
  else
    let risk_amount := current_capital * risk_percent
    let risk_per_share := atr * atr_multi
    let theoretical_size := pytrunc (risk_amount / risk_per_share)
    max (min theoretical_size position_limit) 0

/-- `record_r_multiple` of `ModularDoubleMaStrategy.py`: guarded by
`initial_risk == 0`; appends the realized R-multiple rounded to four decimal
places. -/
def record_r_multiple (s : ModularDoubleMaStrategy) (exit_price : ℚ) (dt : ℕ) :
    ModularDoubleMaStrategy :=
  if s.initial_risk = 0 then s
  else
    let profit := if 0 < s.pos then exit_price - s.entry_price else s.entry_price - exit_price
    let r_val := profit / s.initial_risk
    {s with r_multiples := s.r_multiples ++ [⟨dt, pyround4 r_val⟩]}

/-- `execute_open` of `ModularDoubleMaStrategy.py`: sizes the position from
a fresh ATR and, on a nonzero size, emits the entry intent and initializes
the stop state. -/
def execute_open (s : ModularDoubleMaStrategy) (b : Bar) (direction : ℤ) :
    ModularDoubleMaStrategy × List Intent :=
  let atr := s.am.atr atr_window
  if atr = 0 then (s, [])
  else
    let size := calculate_position_size init_capital atr
    if size ≤ 0 then (s, [])
    else
      let risk_per_share := atr * atr_multi
      if direction = 1 then
        ({s with entry_price := b.close_price, initial_risk := risk_per_share,
                 long_stop := b.close_price - risk_per_share},
         [Intent.buy (b.close_price + 1) size])
      else if direction = -1 then
        ({s with entry_price := b.close_price, initial_risk := risk_per_share,
                 short_stop := b.close_price + risk_per_share},
         [Intent.short (b.close_price - 1) size])
      else (s, [])

/-- `check_exit_strategy` of `ModularDoubleMaStrategy.py`: ratchets the
trailing stop for the open side and, when the close crosses it, emits the
full-size exit intent and records the R-multiple. -/
def check_exit_strategy (s : ModularDoubleMaStrategy) (b : Bar) :
    ModularDoubleMaStrategy × List Intent :=
  let atr := s.am.atr atr_window
  if 0 < s.pos then
    let s1 := {s with long_stop := max s.long_stop (b.high_price - atr_multi * atr)}
    if b.close_price ≤ s1.long_stop then
      (record_r_multiple s1 b.close_price b.dt,
       [Intent.sell (b.close_price - 1) (s.pos.natAbs : ℤ)])
    else (s1, [])
  else if s.pos < 0 then
    let s1 := {s with short_stop := min s.short_stop (b.low_price + atr_multi * atr)}
    if s1.short_stop ≤ b.close_price then
      (record_r_multiple s1 b.close_price b.dt,
       [Intent.cover (b.close_price + 1) (s.pos.natAbs : ℤ)])
    else (s1, [])
  else (s, [])

/-- The decision part of `on_bar`, reached only once the window is inited:
exit evaluation first, then — only when flat — the trend filter and the
crossover signal, and an entry when both agree on a nonzero direction. -/
def on_bar_core (s : ModularDoubleMaStrategy) (b : Bar) :
    ModularDoubleMaStrategy × List Intent :=
  let e := check_exit_strategy s b
  if e.1.pos = 0 then
    let pre_cond := check_pre_condition e.1.am
    let entry_cond := check_entry_condition e.1.am
    if pre_cond ≠ 0 ∧ entry_cond ≠ 0 ∧ pre_cond = entry_cond then
      ((execute_open e.1 b pre_cond).1, e.2 ++ (execute_open e.1 b pre_cond).2)
    else e
  else e

/-- `on_bar` of `ModularDoubleMaStrategy.py`: update the window, return
immediately if not yet inited, otherwise run the decision pipeline. -/
def on_bar (s : ModularDoubleMaStrategy) (b : Bar) :
    ModularDoubleMaStrategy × List Intent :=
  let s0 := {s with am := s.am.update_bar b}
  if s0.am.inited then on_bar_core s0 b else (s0, [])

/-- Folding `on_bar` over a bar sequence, keeping the state. -/
def run_bars (s : ModularDoubleMaStrategy) (bars : List Bar) : ModularDoubleMaStrategy :=
  bars.foldl (fun st b => (on_bar st b).1) s

/-- `len([r for r in R if r > 0])`: the number of winning trades. -/
def wins (R : List ℚ) : ℕ := (R.filter fun r => decide (0 < r)).length

/-- `np.mean`. -/
def mean_of (R : List ℚ) : ℚ := R.sum / R.length

/-- The population variance, i.e. `np.std(...) ** 2` (NumPy's default
`ddof = 0`). -/
def pop_var (R : List ℚ) : ℚ := ((R.map fun r => (r - mean_of R) ^ 2).sum) / R.length

/-- The `TypeError` Python raises when a record dict is compared with an
integer. -/
inductive PyTypeError where
  | dict_int_comparison
deriving DecidableEq, Repr

/-- `print_van_tharp_stats` of `batchBacktest.py`, as a function of the
strategy's record list (`engine.strategy.r_multiples`, a list of
`RMultipleRecord` dicts).  On an empty list it prints a no-trades message
and returns without computing any statistic.  On a nonempty list its first
formula, `len([r for r in r_multiples if r > 0])`, compares a record dict
with the integer `0` and raises `TypeError`, so the reporter never reaches
any of its statistics formulas (mean, std, SQN, cumulative-sum drawdown). -/
def print_van_tharp_stats (r_multiples : List RMultipleRecord) : Except PyTypeError Unit :=
  if r_multiples = [] then Except.ok ()
  else Except.error PyTypeError.dict_int_comparison

/-- The `tharp_stats` dictionary assembled in `run_backtest` of
`撒普统计对/CTABacktest.py` (note: no drawdown, and `win_rate` is a
percentage). -/
structure TharpStats where
  win_rate : ℚ
  mean_r : ℚ
  std_r : ℝ
  sqn : ℝ
  total_r : ℚ

/-- The `tharp_stats` computation of `撒普统计对/CTABacktest.py`, as a
function of the extracted r-values (`r_vals = [x['r_value'] for x in
r_multiples]`, so the guard on the record list coincides with a guard on
this list): left empty (`none`) when there are no records; otherwise
`win_rate` is the winning fraction multiplied by 100, and SQN divides only
when the standard deviation is nonzero. -/
noncomputable def tharp_stats (R : List ℚ) : Option TharpStats :=
  if R = [] then none
  else some
    { win_rate := (wins R : ℚ) / R.length * 100
      mean_r := mean_of R
      std_r := Real.sqrt (pop_var R)
      sqn := if Real.sqrt (pop_var R) = 0 then 0
             else Real.sqrt R.length * (mean_of R / Real.sqrt (pop_var R))
      total_r := R.sum }

/-! ## Helper lemmas -/

@[simp] theorem record_pos (s : ModularDoubleMaStrategy) (p : ℚ) (dt : ℕ) :
    (record_r_multiple s p dt).pos = s.pos := by
  unfold record_r_multiple; split_ifs <;> rfl

@[simp] theorem record_long_stop (s : ModularDoubleMaStrategy) (p : ℚ) (dt : ℕ) :
    (record_r_multiple s p dt).long_stop = s.long_stop := by
  unfold record_r_multiple; split_ifs <;> rfl

@[simp] theorem record_short_stop (s : ModularDoubleMaStrategy) (p : ℚ) (dt : ℕ) :
    (record_r_multiple s p dt).short_stop = s.short_stop := by
  unfold record_r_multiple; split_ifs <;> rfl

@[simp] theorem record_entry_price (s : ModularDoubleMaStrategy) (p : ℚ) (dt : ℕ) :
    (record_r_multiple s p dt).entry_price = s.entry_price := by
  unfold record_r_multiple; split_ifs <;> rfl

@[simp] theorem record_initial_risk (s : ModularDoubleMaStrategy) (p : ℚ) (dt : ℕ) :
    (record_r_multiple s p dt).initial_risk = s.initial_risk := by
  unfold record_r_multiple; split_ifs <;> rfl

@[simp] theorem record_am (s : ModularDoubleMaStrategy) (p : ℚ) (dt : ℕ) :
    (record_r_multiple s p dt).am = s.am := by
  unfold record_r_multiple; split_ifs <;> rfl

@[simp] theorem check_exit_pos (s : ModularDoubleMaStrategy) (b : Bar) :
    (check_exit_strategy s b).1.pos = s.pos := by
  simp only [check_exit_strategy]; split_ifs <;> simp

@[simp] theorem check_exit_am (s : ModularDoubleMaStrategy) (b : Bar) :
    (check_exit_strategy s b).1.am = s.am := by
  simp only [check_exit_strategy]; split_ifs <;> simp

theorem check_exit_long_stop_le (s : ModularDoubleMaStrategy) (b : Bar) :
    s.long_stop ≤ (check_exit_strategy s b).1.long_stop := by
  simp only [check_exit_strategy]; split_ifs <;> simp [le_max_left]

theorem check_exit_short_stop_le (s : ModularDoubleMaStrategy) (b : Bar) :
    (check_exit_strategy s b).1.short_stop ≤ s.short_stop := by
  simp only [check_exit_strategy]; split_ifs <;> simp [min_le_left]

@[simp] theorem execute_open_pos (s : ModularDoubleMaStrategy) (b : Bar) (d : ℤ) :
    (execute_open s b d).1.pos = s.pos := by
  simp only [execute_open]; split_ifs <;> rfl

theorem on_bar_core_pos (s : ModularDoubleMaStrategy) (b : Bar) :
    (on_bar_core s b).1.pos = s.pos := by
  simp only [on_bar_core]; split_ifs <;> simp

theorem on_bar_pos (s : ModularDoubleMaStrategy) (b : Bar) :
    (on_bar s b).1.pos = s.pos := by
  simp only [on_bar]; split_ifs <;> simp [on_bar_core_pos]

theorem on_bar_core_long_stop_mono (s : ModularDoubleMaStrategy) (b : Bar) (h : s.pos ≠ 0) :
    s.long_stop ≤ (on_bar_core s b).1.long_stop := by
  have hpos : ¬(check_exit_strategy s b).1.pos = 0 := by rw [check_exit_pos]; exact h
  simp only [on_bar_core, if_neg hpos]
  exact check_exit_long_stop_le s b

theorem on_bar_core_short_stop_mono (s : ModularDoubleMaStrategy) (b : Bar) (h : s.pos ≠ 0) :
    (on_bar_core s b).1.short_stop ≤ s.short_stop := by
  have hpos : ¬(check_exit_strategy s b).1.pos = 0 := by rw [check_exit_pos]; exact h
  simp only [on_bar_core, if_neg hpos]
  exact check_exit_short_stop_le s b

theorem on_bar_long_stop_mono (s : ModularDoubleMaStrategy) (b : Bar) (h : s.pos ≠ 0) :
    s.long_stop ≤ (on_bar s b).1.long_stop := by
  simp only [on_bar]
  split_ifs with hin
  · exact on_bar_core_long_stop_mono {s with am := s.am.update_bar b} b h
  · exact le_refl _

theorem on_bar_short_stop_mono (s : ModularDoubleMaStrategy) (b : Bar) (h : s.pos ≠ 0) :
    (on_bar s b).1.short_stop ≤ s.short_stop := by
  simp only [on_bar]
  split_ifs with hin
  · exact on_bar_core_short_stop_mono {s with am := s.am.update_bar b} b h
  · exact le_refl _

theorem pytrunc_of_nonneg {q : ℚ} (h : 0 ≤ q) : pytrunc q = ⌊q⌋ := if_pos h

theorem pytrunc_nonpos {q : ℚ} (h : q ≤ 0) : pytrunc q ≤ 0 := by
  unfold pytrunc
  split_ifs with h0
  · have hq : q = 0 := le_antisymm h h0
    simp [hq]
  · have h2 : (0 : ℤ) ≤ ⌊-q⌋ := Int.floor_nonneg.mpr (by linarith)
    omega

/-! ## Claim theorems -/

/-- Claim C10: when the position is flat, the exit evaluation changes no
strategy state and emits no order intent. -/
theorem c10_flat_exit_frame (s : ModularDoubleMaStrategy) (b : Bar) (h : s.pos = 0) :
    check_exit_strategy s b = (s, []) := by
  simp only [check_exit_strategy]
  rw [if_neg (by omega), if_neg (by omega)]

/-- Concrete state and bar used by the C10 witness. -/
def c10s : ModularDoubleMaStrategy := ⟨0, 3, 7, 2, 1, [], ⟨[], 0⟩⟩

/-- Concrete bar used by the C10 witness. -/
def c10b : Bar := ⟨9, 5, 4, 4⟩

/-- Witness for C10 at a concrete flat state. -/
theorem c10_flat_exit_frame_witness :
    c10s.pos = 0 ∧ check_exit_strategy c10s c10b = (c10s, []) :=
  ⟨rfl, c10_flat_exit_frame c10s c10b rfl⟩

/-- Claim C4 (amended): the sizing function returns 0 whenever `atr = 0`
(regardless of the capital), and whenever `risk_per_unit ≤ 0` provided the
capital is nonnegative; when `risk_per_unit > 0` and the capital is
nonnegative it returns `min(floor(risk_amount / risk_per_unit), cap)`
floored at 0. -/
theorem c4_position_sizing (current_capital atr : ℚ) :
    (atr = 0 → calculate_position_size current_capital atr = 0)
    ∧ (0 ≤ current_capital → atr * atr_multi ≤ 0 →
        calculate_position_size current_capital atr = 0)
    ∧ (0 ≤ current_capital → 0 < atr * atr_multi →
        calculate_position_size current_capital atr
          = max (min ⌊current_capital * risk_percent / (atr * atr_multi)⌋ position_limit) 0) := by
  refine ⟨fun h => by simp [calculate_position_size, h], ?_, ?_⟩
  · intro hc hle
    by_cases h0 : atr = 0
    · simp [calculate_position_size, h0]
    · simp only [calculate_position_size, if_neg h0]
      have hca : 0 ≤ current_capital * risk_percent :=
        mul_nonneg hc (by norm_num [risk_percent])
      have hq : current_capital * risk_percent / (atr * atr_multi) ≤ 0 :=
        div_nonpos_iff.mpr (Or.inl ⟨hca, hle⟩)
      have ht := pytrunc_nonpos hq
      have h1 : min (pytrunc (current_capital * risk_percent / (atr * atr_multi)))
          position_limit ≤ 0 :=
        le_trans (min_le_left _ _) ht
      rw [max_eq_right h1]
  · intro hc hpos
    have h0 : atr ≠ 0 := by
      intro h; rw [h, zero_mul] at hpos; exact lt_irrefl 0 hpos
    simp only [calculate_position_size, if_neg h0]
    have hq : 0 ≤ current_capital * risk_percent / (atr * atr_multi) :=
      div_nonneg (mul_nonneg hc (by norm_num [risk_percent])) hpos.le
    rw [pytrunc_of_nonneg hq]

/-- Claim C4 counterexample: with a negative capital and a negative ATR the
risk per unit is negative, yet the function returns 100, not 0 — the claimed
guarantee fails once the capital may be negative. -/
theorem c4_negative_inputs_counterexample :
    calculate_position_size (-100000) (-1) = 100
    ∧ ((-1 : ℚ) * atr_multi ≤ 0) ∧ (100 : ℤ) ≠ 0 := by
  refine ⟨?_, by norm_num [atr_multi], by decide⟩
  have hq : (-100000 : ℚ) * risk_percent / ((-1 : ℚ) * atr_multi) = 1000 / 3 := by
    norm_num [risk_percent, atr_multi]
  have hfl : ⌊(1000 / 3 : ℚ)⌋ = 333 := by
    rw [Int.floor_eq_iff]; norm_num
  simp only [calculate_position_size, pytrunc, hq, hfl, position_limit]
  norm_num [hfl]

/-- Witness for C4 at a concrete positive input. -/
theorem c4_position_sizing_witness :
    (0 ≤ (100000 : ℚ)) ∧ (0 < (1 : ℚ) * atr_multi)
    ∧ calculate_position_size 100000 1
        = max (min ⌊(100000 : ℚ) * risk_percent / ((1 : ℚ) * atr_multi)⌋ position_limit) 0 :=
  ⟨by norm_num, by norm_num [atr_multi],
    (c4_position_sizing 100000 1).2.2 (by norm_num) (by norm_num [atr_multi])⟩

theorem roundHalfEven_abs_le (x : ℚ) : |(roundHalfEven x : ℚ) - x| ≤ 1 / 2 := by
  have h0 : (⌊x⌋ : ℚ) ≤ x := Int.floor_le x
  have h1 : x < ⌊x⌋ + 1 := Int.lt_floor_add_one x
  simp only [roundHalfEven]
  split_ifs with ha hb hc
  · rw [abs_le]; constructor <;> linarith
  · rw [abs_le]; push_cast; constructor <;> linarith
  · have ha2 : 1 / 2 ≤ x - ⌊x⌋ := by linarith [not_lt.mp ha]
    have hb2 : x - ⌊x⌋ ≤ 1 / 2 := by linarith [not_lt.mp hb]
    rw [abs_le]; constructor <;> linarith
  · have ha2 : 1 / 2 ≤ x - ⌊x⌋ := by linarith [not_lt.mp ha]
    have hb2 : x - ⌊x⌋ ≤ 1 / 2 := by linarith [not_lt.mp hb]
    rw [abs_le]; push_cast; constructor <;> linarith

theorem pyround4_abs_le (q : ℚ) : |pyround4 q - q| ≤ 5 / 100000 := by
  have h := roundHalfEven_abs_le (q * 10000)
  unfold pyround4
  have hrw : (roundHalfEven (q * 10000) : ℚ) / 10000 - q
      = ((roundHalfEven (q * 10000) : ℚ) - q * 10000) / 10000 := by ring
  rw [hrw, abs_div, abs_of_pos (by norm_num : (0 : ℚ) < 10000)]
  have h5 : (5 : ℚ) / 100000 = (1 / 2) / 10000 := by norm_num
  rw [h5]
  exact (div_le_div_iff_of_pos_right (by norm_num)).mpr h

/-- Claim C9: every appended R-record stores the exact quotient rounded
(half to even) at four decimal places, and that rounding moves any value by
at most `5e-5`. -/
theorem c9_r_value_rounded (s : ModularDoubleMaStrategy) (p : ℚ) (dt : ℕ)
    (h : s.initial_risk ≠ 0) :
    (record_r_multiple s p dt).r_multiples
      = s.r_multiples
        ++ [⟨dt, pyround4 ((if 0 < s.pos then p - s.entry_price else s.entry_price - p)
              / s.initial_risk)⟩]
    ∧ ∀ q : ℚ, |pyround4 q - q| ≤ 5 / 100000 := by
  refine ⟨?_, pyround4_abs_le⟩
  simp [record_r_multiple, h]

/-- Concrete state used by the C9 witness. -/
def c9s : ModularDoubleMaStrategy := ⟨1, 10, 0, 0, 3, [], ⟨[], 0⟩⟩

/-- Witness for C9 at a concrete long state with unit profit and risk 3. -/
theorem c9_r_value_rounded_witness :
    c9s.initial_risk ≠ 0
    ∧ (record_r_multiple c9s 1 7).r_multiples
        = c9s.r_multiples
          ++ [⟨7, pyround4 ((if 0 < c9s.pos then 1 - c9s.entry_price else c9s.entry_price - 1)
                / c9s.initial_risk)⟩] :=
  ⟨by decide, (c9_r_value_rounded c9s 1 7 (by decide)).1⟩

/-- Claim C2: over any bar sequence, while the position stays long the long
stop never decreases, and while it stays short the short stop never
increases.  (The position field is only ever written by the host's fill
handling, never by the strategy functions themselves, so "remains long" is
the hypothesis `0 < pos` on the initial state.) -/
theorem c2_trailing_stop_monotone (bars : List Bar) (s : ModularDoubleMaStrategy) :
    (0 < s.pos → s.long_stop ≤ (run_bars s bars).long_stop)
    ∧ (s.pos < 0 → (run_bars s bars).short_stop ≤ s.short_stop) := by
  induction bars generalizing s with
  | nil => exact ⟨fun _ => le_refl _, fun _ => le_refl _⟩
  | cons b bs ih =>
    have hrun : run_bars s (b :: bs) = run_bars (on_bar s b).1 bs := rfl
    constructor
    · intro hp
      have h1 := on_bar_long_stop_mono s b hp.ne'
      have h2 := (ih (on_bar s b).1).1 (by rw [on_bar_pos]; exact hp)
      rw [hrun]; exact le_trans h1 h2
    · intro hp
      have h1 := on_bar_short_stop_mono s b hp.ne
      have h2 := (ih (on_bar s b).1).2 (by rw [on_bar_pos]; exact hp)
      rw [hrun]; exact le_trans h2 h1

/-- Concrete long state used by the C2 witness. -/
def c2s : ModularDoubleMaStrategy := ⟨1, 10, 20, 5, 2, [], ⟨[], 0⟩⟩

/-- Concrete bar used by the C2 witness. -/
def c2b : Bar := ⟨0, 6, 4, 5⟩

/-- Witness for C2 on a concrete long state and a two-bar sequence. -/
theorem c2_trailing_stop_monotone_witness :
    0 < c2s.pos ∧ c2s.long_stop ≤ (run_bars c2s [c2b, c2b]).long_stop :=
  ⟨by decide, (c2_trailing_stop_monotone [c2b, c2b] c2s).1 (by decide)⟩

/-- Claim C6: whenever the fast and slow SMAs are defined at the current bar
and at lag 1, the crossover signal is `+1` iff the fast SMA is strictly
above the slow one now and was at or below it on the previous bar, `-1` in
the symmetric case, and `0` otherwise. -/
theorem c6_crossover_signal (w : BarWindow) (_hlen : slow_window + 1 ≤ w.bars.length) :
    (check_entry_condition w = 1 ↔
      (w.sma fast_window 0 > w.sma slow_window 0 ∧ w.sma fast_window 1 ≤ w.sma slow_window 1))
    ∧ (check_entry_condition w = -1 ↔
      (w.sma fast_window 0 < w.sma slow_window 0 ∧ w.sma fast_window 1 ≥ w.sma slow_window 1))
    ∧ (check_entry_condition w = 0 ↔
      (¬(w.sma fast_window 0 > w.sma slow_window 0 ∧ w.sma fast_window 1 ≤ w.sma slow_window 1)
        ∧ ¬(w.sma fast_window 0 < w.sma slow_window 0
              ∧ w.sma fast_window 1 ≥ w.sma slow_window 1))) := by
  simp only [check_entry_condition]
  split_ifs with h1 h2
  · exact ⟨⟨fun _ => h1, fun _ => rfl⟩,
      ⟨fun h => absurd h (by decide), fun hB => absurd hB.1 (lt_asymm h1.1)⟩,
      ⟨fun h => absurd h (by decide), fun hn => absurd h1 hn.1⟩⟩
  · exact ⟨⟨fun h => absurd h (by decide), fun hA => absurd hA.1 (lt_asymm h2.1)⟩,
      ⟨fun _ => h2, fun _ => rfl⟩,
      ⟨fun h => absurd h (by decide), fun hn => absurd h2 hn.2⟩⟩
  · exact ⟨⟨fun h => absurd h (by decide), fun hA => absurd hA h1⟩,
      ⟨fun h => absurd h (by decide), fun hB => absurd hB h2⟩,
      ⟨fun _ => ⟨h1, h2⟩, fun _ => rfl⟩⟩

/-- Concrete 11-bar window (constant closes) used by the C6 witness. -/
def c6w : BarWindow := ⟨List.replicate 11 ⟨0, 1, 1, 1⟩, 11⟩

/-- Witness for C6 at a concrete window with enough bars. -/
theorem c6_crossover_signal_witness :
    slow_window + 1 ≤ c6w.bars.length
    ∧ (check_entry_condition c6w = 1 ↔
        (c6w.sma fast_window 0 > c6w.sma slow_window 0
          ∧ c6w.sma fast_window 1 ≤ c6w.sma slow_window 1)) :=
  ⟨by decide, (c6_crossover_signal c6w (by decide)).1⟩

/-- Claim C7: whenever the three filter SMAs are defined, the regime is `+1`
iff they are strictly decreasing from fast to slow, `-1` iff strictly
increasing, and `0` otherwise — in particular any equality between adjacent
SMAs yields `0`. -/
theorem c7_trend_regime (w : BarWindow) (_hlen : filter_slow * filter_n ≤ w.bars.length) :
    (check_pre_condition w = 1 ↔
      (w.sma (filter_fast * filter_n) 0 > w.sma (filter_mid * filter_n) 0
        ∧ w.sma (filter_mid * filter_n) 0 > w.sma (filter_slow * filter_n) 0))
    ∧ (check_pre_condition w = -1 ↔
      (w.sma (filter_fast * filter_n) 0 < w.sma (filter_mid * filter_n) 0
        ∧ w.sma (filter_mid * filter_n) 0 < w.sma (filter_slow * filter_n) 0))
    ∧ (check_pre_condition w = 0 ↔
      (¬(w.sma (filter_fast * filter_n) 0 > w.sma (filter_mid * filter_n) 0
          ∧ w.sma (filter_mid * filter_n) 0 > w.sma (filter_slow * filter_n) 0)
        ∧ ¬(w.sma (filter_fast * filter_n) 0 < w.sma (filter_mid * filter_n) 0
          ∧ w.sma (filter_mid * filter_n) 0 < w.sma (filter_slow * filter_n) 0)))
    ∧ ((w.sma (filter_fast * filter_n) 0 = w.sma (filter_mid * filter_n) 0
        ∨ w.sma (filter_mid * filter_n) 0 = w.sma (filter_slow * filter_n) 0) →
      check_pre_condition w = 0) := by
  have key :
      (check_pre_condition w = 1 ↔
        (w.sma (filter_fast * filter_n) 0 > w.sma (filter_mid * filter_n) 0
          ∧ w.sma (filter_mid * filter_n) 0 > w.sma (filter_slow * filter_n) 0))
      ∧ (check_pre_condition w = -1 ↔
        (w.sma (filter_fast * filter_n) 0 < w.sma (filter_mid * filter_n) 0
          ∧ w.sma (filter_mid * filter_n) 0 < w.sma (filter_slow * filter_n) 0))
      ∧ (check_pre_condition w = 0 ↔
        (¬(w.sma (filter_fast * filter_n) 0 > w.sma (filter_mid * filter_n) 0
            ∧ w.sma (filter_mid * filter_n) 0 > w.sma (filter_slow * filter_n) 0)
          ∧ ¬(w.sma (filter_fast * filter_n) 0 < w.sma (filter_mid * filter_n) 0
            ∧ w.sma (filter_mid * filter_n) 0 < w.sma (filter_slow * filter_n) 0))) := by
    simp only [check_pre_condition]
    split_ifs with h1 h2
    · exact ⟨⟨fun _ => h1, fun _ => rfl⟩,
        ⟨fun h => absurd h (by decide), fun hB => absurd hB.1 (lt_asymm h1.1)⟩,
        ⟨fun h => absurd h (by decide), fun hn => absurd h1 hn.1⟩⟩
    · exact ⟨⟨fun h => absurd h (by decide), fun hA => absurd hA.1 (lt_asymm h2.1)⟩,
        ⟨fun _ => h2, fun _ => rfl⟩,
        ⟨fun h => absurd h (by decide), fun hn => absurd h2 hn.2⟩⟩
    · exact ⟨⟨fun h => absurd h (by decide), fun hA => absurd hA h1⟩,
        ⟨fun h => absurd h (by decide), fun hB => absurd hB h2⟩,
        ⟨fun _ => ⟨h1, h2⟩, fun _ => rfl⟩⟩
  refine ⟨key.1, key.2.1, key.2.2, ?_⟩
  intro hor
  apply key.2.2.mpr
  constructor
  · intro hA
    rcases hor with h | h
    · rw [h] at hA; exact lt_irrefl _ hA.1
    · rw [h] at hA; exact lt_irrefl _ hA.2
  · intro hB
    rcases hor with h | h
    · rw [h] at hB; exact lt_irrefl _ hB.1
    · rw [h] at hB; exact lt_irrefl _ hB.2

/-- Concrete 100-bar window (constant closes) used by the C7 witness. -/
def c7w : BarWindow := ⟨List.replicate 100 ⟨0, 1, 1, 1⟩, 100⟩

/-- Witness for C7 at a concrete window with enough bars. -/
theorem c7_trend_regime_witness :
    filter_slow * filter_n ≤ c7w.bars.length
    ∧ (check_pre_condition c7w = 1 ↔
        (c7w.sma (filter_fast * filter_n) 0 > c7w.sma (filter_mid * filter_n) 0
          ∧ c7w.sma (filter_mid * filter_n) 0 > c7w.sma (filter_slow * filter_n) 0)) :=
  ⟨by decide, (c7_trend_regime c7w (by decide)).1⟩

/-- Claim C8 counterexample: with zero closed trades neither statistics
path returns any populated snapshot — `batchBacktest` returns early after a
no-trades message and `CTABacktest` leaves `tharp_stats` empty — so no
snapshot with `n = 0` and zeroed ratios exists. -/
theorem c8_empty_snapshot_counterexample :
    print_van_tharp_stats [] = Except.ok () ∧ tharp_stats [] = none :=
  ⟨by simp [print_van_tharp_stats], by simp [tharp_stats]⟩

/-- Claim C8 (amended): a statistics query with zero closed trades produces
no snapshot at all — `batchBacktest` prints its no-trades message and
returns, `CTABacktest` leaves the statistics dictionary empty — and since
the zero-trades path computes no statistic, no division by zero can occur;
the `CTABacktest` dictionary is populated exactly for nonempty record
lists. -/
theorem c8_empty_stats_skipped :
    print_van_tharp_stats [] = Except.ok () ∧ tharp_stats [] = none
    ∧ ∀ R : List ℚ, R ≠ [] → (tharp_stats R).isSome = true := by
  refine ⟨by simp [print_van_tharp_stats], by simp [tharp_stats], ?_⟩
  intro R h
  simp [tharp_stats, h]

/-- Witness for C8 on a concrete one-element r-value list. -/
theorem c8_empty_stats_skipped_witness :
    ([(1 : ℚ)] ≠ []) ∧ (tharp_stats [(1 : ℚ)]).isSome = true :=
  ⟨by simp, c8_empty_stats_skipped.2.2 [(1 : ℚ)] (by simp)⟩

/-- Claim C1 (amended): for every nonempty list of recorded r-values the
`CTABacktest` statistics block computes exactly the claimed arithmetic mean,
population standard deviation, SQN guarded by a zero standard deviation,
and total, but reports the win rate as the winning fraction multiplied by
100 and computes no drawdown; the batch reporter `print_van_tharp_stats`
computes no statistics at all on a nonempty record list, because its first
formula compares a record dict with `0` and raises `TypeError`.  On
`R = [1, -0.5, 2, -1]` the `CTABacktest` block yields `win_rate = 50`,
`mean_r = 0.375`, `total_r = 1.5`. -/
theorem c1_stats_formulas :
    (∀ R : List ℚ, R ≠ [] →
      (tharp_stats R).map TharpStats.win_rate = some ((wins R : ℚ) / R.length * 100)
      ∧ (tharp_stats R).map TharpStats.mean_r = some (R.sum / R.length)
      ∧ (tharp_stats R).map TharpStats.total_r = some R.sum
      ∧ (tharp_stats R).map TharpStats.std_r
          = some (Real.sqrt ((((R.map fun r => (r - R.sum / R.length) ^ 2).sum
              / R.length : ℚ) : ℝ)))
      ∧ (Real.sqrt (pop_var R) = 0 → (tharp_stats R).map TharpStats.sqn = some 0)
      ∧ (Real.sqrt (pop_var R) ≠ 0 →
          (tharp_stats R).map TharpStats.sqn
            = some (Real.sqrt R.length * (R.sum / R.length) / Real.sqrt (pop_var R))))
    ∧ (∀ records : List RMultipleRecord, records ≠ [] →
        print_van_tharp_stats records = Except.error PyTypeError.dict_int_comparison)
    ∧ (tharp_stats [1, -1/2, 2, -1]).map TharpStats.win_rate = some 50
    ∧ (tharp_stats [1, -1/2, 2, -1]).map TharpStats.mean_r = some (3/8)
    ∧ (tharp_stats [1, -1/2, 2, -1]).map TharpStats.total_r = some (3/2) := by
  refine ⟨?_, ?_, ?_, ?_, ?_⟩
  · intro R h
    refine ⟨?_, ?_, ?_, ?_, ?_, ?_⟩
    · simp [tharp_stats, h]
    · simp [tharp_stats, h, mean_of]
    · simp [tharp_stats, h]
    · simp [tharp_stats, h, pop_var, mean_of]
    · intro hs; simp [tharp_stats, h, hs]
    · intro hs
      simp [tharp_stats, h, hs, mean_of]
      rw [mul_div_assoc]
  · intro records h
    simp [print_van_tharp_stats, h]
  · simp [tharp_stats, wins]
    norm_num [List.filter]
  · simp [tharp_stats, mean_of]
    norm_num
  · simp [tharp_stats]
    norm_num

/-- Witness for C1 at the concrete record list from the spec. -/
theorem c1_stats_formulas_witness :
    ([(1 : ℚ), -1/2, 2, -1] ≠ [])
    ∧ (tharp_stats [1, -1/2, 2, -1]).map TharpStats.win_rate
        = some ((wins [1, -1/2, 2, -1] : ℚ) / ([(1 : ℚ), -1/2, 2, -1]).length * 100) :=
  ⟨by simp, (c1_stats_formulas.1 [1, -1/2, 2, -1] (by simp)).1⟩

/-- Claim C1 counterexample: on `R = [1, -0.5, 2, -1]` the `CTABacktest`
statistics block reports `win_rate = 50`, not the claimed `0.5`. -/
theorem c1_win_rate_scale_counterexample :
    (tharp_stats [1, -1/2, 2, -1]).map TharpStats.win_rate = some 50
    ∧ (50 : ℚ) ≠ 1/2 := by
  constructor
  · simp [tharp_stats, wins]
    norm_num [List.filter]
  · norm_num

theorem record_r_multiple_r_multiples (s : ModularDoubleMaStrategy) (p : ℚ) (dt : ℕ) :
    (record_r_multiple s p dt).r_multiples
      = (if s.initial_risk = 0 then s.r_multiples
         else s.r_multiples
           ++ [⟨dt, pyround4 ((if 0 < s.pos then p - s.entry_price else s.entry_price - p)
                 / s.initial_risk)⟩]) := by
  simp only [record_r_multiple]
  split_ifs <;> rfl

/-- Claim C3 (amended): a long exit evaluation whose close is at or below
the ratcheted stop emits exactly one full-size sell intent and, when the
initial risk is nonzero, appends exactly one record whose `r_value` is
`(close - entry) / initial_risk` rounded (half to even) to four decimal
places; symmetrically for shorts; with zero initial risk no record is
appended. -/
theorem c3_exit_emission (s : ModularDoubleMaStrategy) (b : Bar) :
    (0 < s.pos →
      b.close_price ≤ max s.long_stop (b.high_price - atr_multi * s.am.atr atr_window) →
      (check_exit_strategy s b).2 = [Intent.sell (b.close_price - 1) (s.pos.natAbs : ℤ)]
      ∧ (check_exit_strategy s b).1.r_multiples
          = (if s.initial_risk = 0 then s.r_multiples
             else s.r_multiples
               ++ [⟨b.dt, pyround4 ((b.close_price - s.entry_price) / s.initial_risk)⟩]))
    ∧ (s.pos < 0 →
      min s.short_stop (b.low_price + atr_multi * s.am.atr atr_window) ≤ b.close_price →
      (check_exit_strategy s b).2 = [Intent.cover (b.close_price + 1) (s.pos.natAbs : ℤ)]
      ∧ (check_exit_strategy s b).1.r_multiples
          = (if s.initial_risk = 0 then s.r_multiples
             else s.r_multiples
               ++ [⟨b.dt, pyround4 ((s.entry_price - b.close_price) / s.initial_risk)⟩])) := by
  constructor
  · intro hp hle
    simp only [check_exit_strategy]
    rw [if_pos hp, if_pos hle]
    refine ⟨rfl, ?_⟩
    rw [record_r_multiple_r_multiples]
    simp [hp]
  · intro hn hle
    have hnp : ¬0 < s.pos := by omega
    simp only [check_exit_strategy]
    rw [if_neg hnp, if_pos hn, if_pos hle]
    refine ⟨rfl, ?_⟩
    rw [record_r_multiple_r_multiples]
    simp [hnp]

/-- Concrete long state used by C3: entry 0, initial risk 3, stop 10. -/
def c3s : ModularDoubleMaStrategy := ⟨1, 10, 0, 0, 3, [], ⟨[], 0⟩⟩

/-- Concrete exit bar used by C3: close 1, so the exact R-multiple is 1/3. -/
def c3b : Bar := ⟨5, 4, 3, 1⟩

theorem c3_atr_zero : c3s.am.atr atr_window = 0 := by
  simp [c3s, BarWindow.atr, tr_list, lastN]

theorem c3_hle :
    c3b.close_price ≤ max c3s.long_stop (c3b.high_price - atr_multi * c3s.am.atr atr_window) := by
  rw [c3_atr_zero]
  exact le_trans (by norm_num [c3b, c3s]) (le_max_left c3s.long_stop _)

/-- Claim C3 counterexample: at the concrete exit the stored `r_value` is
`0.3333`, while the exact quotient `(close - entry) / initial_risk` is
`1/3` — the record does not store the exact quotient. -/
theorem c3_exact_quotient_counterexample :
    (check_exit_strategy c3s c3b).1.r_multiples = [⟨5, 3333 / 10000⟩]
    ∧ (3333 / 10000 : ℚ) ≠ (c3b.close_price - c3s.entry_price) / c3s.initial_risk := by
  have hfl : ⌊(1 / 3 : ℚ) * 10000⌋ = 3333 := by
    rw [show (1 / 3 : ℚ) * 10000 = 10000 / 3 by norm_num]
    rw [Int.floor_eq_iff]; norm_num
  have hr : pyround4 (1 / 3) = 3333 / 10000 := by
    simp only [pyround4, roundHalfEven, hfl]
    rw [if_pos (by norm_num)]
    norm_num
  constructor
  · have hpos : (0 : ℤ) < c3s.pos := by decide
    simp only [check_exit_strategy]
    rw [if_pos hpos, if_pos c3_hle]
    rw [record_r_multiple_r_multiples]
    norm_num [c3s, c3b, hr]
  · norm_num [c3s, c3b]

/-- Witness for C3 at the concrete long exit. -/
theorem c3_exit_emission_witness :
    0 < c3s.pos
    ∧ c3b.close_price ≤ max c3s.long_stop (c3b.high_price - atr_multi * c3s.am.atr atr_window)
    ∧ (check_exit_strategy c3s c3b).2
        = [Intent.sell (c3b.close_price - 1) (c3s.pos.natAbs : ℤ)] :=
  ⟨by decide, c3_hle, ((c3_exit_emission c3s c3b).1 (by decide) c3_hle).1⟩

theorem check_exit_no_entry_intents (s : ModularDoubleMaStrategy) (b : Bar) (i : Intent)
    (hi : i ∈ (check_exit_strategy s b).2) : isEntryIntent i = false := by
  simp only [check_exit_strategy] at hi
  split_ifs at hi <;> simp at hi <;> subst hi <;> rfl

/-- Claim C5: an entry order intent (buy or short) is emitted only when the
updated window is inited, the position is flat, and the trend filter and the
crossover signal agree on a nonzero direction; before the window is inited
the bar leaves every other state field untouched and emits nothing. -/
theorem c5_entry_gating (s : ModularDoubleMaStrategy) (b : Bar) :
    (∀ i, i ∈ (on_bar s b).2 → isEntryIntent i = true →
      ((s.am.update_bar b).inited = true ∧ s.pos = 0
        ∧ check_pre_condition (s.am.update_bar b) = check_entry_condition (s.am.update_bar b)
        ∧ check_pre_condition (s.am.update_bar b) ≠ 0))
    ∧ ((s.am.update_bar b).inited = false →
      on_bar s b = ({s with am := s.am.update_bar b}, [])) := by
  constructor
  · intro i hi hent
    simp only [on_bar] at hi
    split_ifs at hi with hin
    · simp only [on_bar_core] at hi
      split_ifs at hi with hpos hsig
      · have hi2 : i ∈ (check_exit_strategy {s with am := s.am.update_bar b} b).2
            ++ (execute_open (check_exit_strategy {s with am := s.am.update_bar b} b).1 b
                  (check_pre_condition
                    (check_exit_strategy {s with am := s.am.update_bar b} b).1.am)).2 := hi
        rcases List.mem_append.mp hi2 with hL | _
        · exact absurd (check_exit_no_entry_intents _ _ _ hL) (by simp [hent])
        · rw [check_exit_pos] at hpos
          rw [check_exit_am] at hsig
          exact ⟨hin, hpos, hsig.2.2, hsig.1⟩
      · exact absurd (check_exit_no_entry_intents _ _ _ hi) (by simp [hent])
      · exact absurd (check_exit_no_entry_intents _ _ _ hi) (by simp [hent])
    · simp at hi
  · intro h
    have hneg : ¬(({s with am := s.am.update_bar b} :
        ModularDoubleMaStrategy).am.inited = true) := by
      simp [h]
    simp only [on_bar]
    rw [if_neg hneg]

/-- Concrete flat state used by the C5 witness. -/
def c5s : ModularDoubleMaStrategy := ⟨0, 0, 0, 0, 0, [], ⟨[], 0⟩⟩

/-- Concrete bar used by the C5 witness. -/
def c5b : Bar := ⟨0, 2, 1, 1⟩

/-- Witness for C5 at a concrete not-yet-inited window. -/
theorem c5_entry_gating_witness :
    (c5s.am.update_bar c5b).inited = false
    ∧ on_bar c5s c5b = ({c5s with am := c5s.am.update_bar c5b}, []) :=
  ⟨by decide, (c5_entry_gating c5s c5b).2 (by decide)⟩

end VnpyBacktest
